import Mathlib

/-!
Verification development for the `libnvidia-hide` LD_PRELOAD library
(crates/libnvidia-hide/src/lib.rs).  The Rust source is shallowly embedded:
pure string helpers become Lean functions on `String`/`List Char`, the
process-wide activation state and discovery result become explicit values,
and the hooked entry points become pure functions over the inputs they
would read from the environment (directory streams, file contents, flag
words).  The libc glob matcher `fnmatch` is an external trusted primitive
of the program, so functions built on it are parametrised by an arbitrary
matcher `fnm : String → String → Bool`.
-/

namespace NvidiaHide

/-- Whitespace characters trimmed by the Rust `trim` helper
(`' '`, `'\t'`, `'\n'`, `'\r'`). -/
def isWsChar (c : Char) : Bool :=
  c == ' ' || c == '\t' || c == '\n' || c == '\r'

/-- Embedding of `trim` (lib.rs:43-45): strip the four whitespace
characters from both ends. -/
def trimRust (s : String) : String :=
  ⟨((s.toList.dropWhile isWsChar).reverse.dropWhile isWsChar).reverse⟩

/-- Does the character list `s` start with `pre`?  (Rust `str::starts_with`.) -/
def charsStartWith : List Char → List Char → Bool
  | _, [] => true
  | [], _ :: _ => false
  | a :: as, b :: bs => a == b && charsStartWith as bs

/-- Rust `str::starts_with` on strings. -/
def strStartsWith (s pre : String) : Bool :=
  charsStartWith s.toList pre.toList

/-- Does the character list contain `pat` as a contiguous sublist?
(Rust `str::contains` with a string pattern.) -/
def charsContain (pat : List Char) : List Char → Bool
  | [] => charsStartWith [] pat
  | a :: rest => charsStartWith (a :: rest) pat || charsContain pat rest

/-- Rust `str::contains` on strings. -/
def strContains (s pat : String) : Bool :=
  charsContain pat.toList s.toList

/-- Split a character list on a separator character (Rust `str::split(c)`):
always yields at least one piece, empty pieces preserved. -/
def splitOnChar (c : Char) : List Char → List (List Char)
  | [] => [[]]
  | a :: rest =>
    let r := splitOnChar c rest
    if a == c then [] :: r
    else
      match r with
      | [] => [[a]]
      | h :: t => (a :: h) :: t

/-- Embedding of `basename` (lib.rs:39-41): `path.rsplit('/').next()`,
i.e. the final `/`-separated segment. -/
def basename (path : String) : String :=
  match (splitOnChar '/' path.toList).getLast? with
  | some l => ⟨l⟩
  | none => path

/-- Whether the string contains an interior NUL byte, which makes
`CString::new` fail in `glob_match`. -/
def hasNulByte (s : String) : Bool :=
  s.toList.any (fun c => c == Char.ofNat 0)

/-- Rust `str::lines`: split on `'\n'`, drop a final empty piece produced
by a trailing newline, and strip one trailing `'\r'` from each line. -/
def rustLines (s : String) : List String :=
  let parts := splitOnChar '\n' s.toList
  let parts :=
    match parts.getLast? with
    | some [] => parts.dropLast
    | _ => parts
  parts.map (fun l =>
    match l.getLast? with
    | some c => if c == '\r' then ⟨l.dropLast⟩ else ⟨l⟩
    | none => ⟨l⟩)

/-- Everything after the first `':'` in the list, if any
(Rust `bdf.find(':')` followed by slicing `bdf[colon+1..]`). -/
def afterFirstColon : List Char → Option (List Char)
  | [] => none
  | c :: rest => if c == ':' then some rest else afterFirstColon rest

/-- Embedding of `glob_match` (lib.rs:58-64).  `fnm` stands for the libc
`fnmatch` primitive (pattern, target).  If the pattern contains `'/'` the
full path is matched, otherwise the base name; a NUL byte in either string
makes `CString::new` fail and the function return `false`. -/
def glob_match (fnm : String → String → Bool)
    (pat exe_full exe_base : String) : Bool :=
  let target := if strContains pat "/" then exe_full else exe_base
  if hasNulByte pat || hasNulByte target then false
  else fnm pat target

/-- Embedding of `env_list_has_match` (lib.rs:66-75): split the value on
`':'`, trim each token, skip empty tokens, return whether some token
glob-matches the process identity. -/
def env_list_has_match (fnm : String → String → Bool)
    (envval : Option String) (exe_full exe_base : String) : Bool :=
  match envval with
  | none => false
  | some v =>
    if v == "" then false
    else (splitOnChar ':' v.toList).any (fun tok =>
      let t := trimRust ⟨tok⟩
      !(t == "") && glob_match fnm t exe_full exe_base)

/-- Loop body of `file_list_has_match` (lib.rs:81-88): walk the lines with
the running `had` flag; trimmed-empty and `#` lines are skipped, a matching
line returns `(true, true)` at once, otherwise `had` becomes `true`. -/
def file_list_loop (fnm : String → String → Bool)
    (exe_full exe_base : String) : List String → Bool → Bool × Bool
  | [], had => (false, had)
  | l :: rest, had =>
    let t := trimRust l
    if t == "" || strStartsWith t "#" then
      file_list_loop fnm exe_full exe_base rest had
    else if glob_match fnm t exe_full exe_base then (true, true)
    else file_list_loop fnm exe_full exe_base rest true

/-- Embedding of `file_list_has_match` (lib.rs:77-89).  `content` is the
result of `std::fs::read_to_string` on the list file: `none` when the read
fails, in which case the result is `(false, false)`. -/
def file_list_has_match (fnm : String → String → Bool)
    (content : Option String) (exe_full exe_base : String) : Bool × Bool :=
  match content with
  | none => (false, false)
  | some data => file_list_loop fnm exe_full exe_base (rustLines data) false

/-- Inputs read by `apply_policy_from_exe`: the self-executable path
(`none` when `/proc/self/exe` is unreadable), the two environment list
values, and the contents of the allow/deny files (`none` when unreadable). -/
structure PolicyEnv where
  exe : Option String
  envAllow : Option String
  envDeny : Option String
  allowFile : Option String
  denyFile : Option String

/-- Embedding of `apply_policy_from_exe` (lib.rs:91-131) acting on the
prior activation value `active0`: if the executable path is unreadable the
function returns without writing (`active0` kept); otherwise `ACTIVE` is
stored `false` when `has_allow && !allow_match`, and again when
`deny_match`. -/
def apply_policy_from_exe (fnm : String → String → Bool)
    (env : PolicyEnv) (active0 : Bool) : Bool :=
  match env.exe with
  | none => active0
  | some exe_full =>
    let exe_base := basename exe_full
    let allow_match_env := env_list_has_match fnm env.envAllow exe_full exe_base
    let deny_match_env := env_list_has_match fnm env.envDeny exe_full exe_base
    let allowFileRes := file_list_has_match fnm env.allowFile exe_full exe_base
    let denyFileRes := file_list_has_match fnm env.denyFile exe_full exe_base
    let has_allow :=
      (match env.envAllow with
       | some s => !(s == "")
       | none => false) || allowFileRes.2
    let allow_match := allow_match_env || allowFileRes.1
    let deny_match := deny_match_env || denyFileRes.1
    let a1 := if has_allow && !allow_match then false else active0
    let a2 := if deny_match then false else a1
    a2

/-- Embedding of the activation part of `nh_init` (lib.rs:246-257):
`ACTIVE` is stored `true`, then the policy runs once. -/
def nh_init_active (fnm : String → String → Bool) (env : PolicyEnv) : Bool :=
  apply_policy_from_exe fnm env true

/-- Decision rule in the words of the spec (§4.3): start `active = true`;
skip the step entirely when the identity is unreadable; otherwise `active`
is `false` exactly when (an allowlist is configured and no allow pattern
matches) or (some deny pattern matches). -/
def policySpecDecision (fnm : String → String → Bool) (env : PolicyEnv) : Bool :=
  match env.exe with
  | none => true
  | some exe_full =>
    let exe_base := basename exe_full
    let allowFileRes := file_list_has_match fnm env.allowFile exe_full exe_base
    let has_allow :=
      (match env.envAllow with
       | some s => !(s == "")
       | none => false) || allowFileRes.2
    let allow_match :=
      env_list_has_match fnm env.envAllow exe_full exe_base || allowFileRes.1
    let deny_match :=
      env_list_has_match fnm env.envDeny exe_full exe_base ||
        (file_list_has_match fnm env.denyFile exe_full exe_base).1
    !((has_allow && !allow_match) || deny_match)

/-- Embedding of `is_drm_devnode_name` (lib.rs:152-158): any name starting
with `renderD` is accepted outright; a name starting with `card` is
accepted when every remaining character is an ASCII digit. -/
def is_drm_devnode_name (name : String) : Bool :=
  if strStartsWith name "renderD" then true
  else if strStartsWith name "card" then
    (name.toList.drop 4).all Char.isDigit
  else false

/-- Node-naming grammar as the spec (§4.4) states it: the literal
`renderD` or `card` followed by one or more decimal digits and nothing
else.  Written from the spec's words, to compare with the source
function `is_drm_devnode_name`. -/
def specNodeGrammar (name : String) : Bool :=
  (strStartsWith name "renderD" && !(name.toList.drop 7).isEmpty &&
    (name.toList.drop 7).all Char.isDigit) ||
  (strStartsWith name "card" && !(name.toList.drop 4).isEmpty &&
    (name.toList.drop 4).all Char.isDigit)

/-- Loop of `discover_nvidia` (lib.rs:164-175) over the directory entries,
carrying the `nodes`/`bdfs` accumulators.  `vendor name` stands for
`sysfs_drm_node_vendor_is_nvidia(name)` and `bdfOf name` for
`sysfs_drm_node_bdf(name)`, both reads of the live sysfs tree. -/
def discover_loop (vendor : String → Bool) (bdfOf : String → Option String) :
    List String → List String × List String → List String × List String
  | [], acc => acc
  | name :: rest, (nodes, bdfs) =>
    if !is_drm_devnode_name name then discover_loop vendor bdfOf rest (nodes, bdfs)
    else if !vendor name then discover_loop vendor bdfOf rest (nodes, bdfs)
    else
      let nodes := nodes ++ [name]
      let bdfs :=
        match bdfOf name with
        | some bdf => if bdfs.contains bdf then bdfs else bdfs ++ [bdf]
        | none => bdfs
      discover_loop vendor bdfOf rest (nodes, bdfs)

/-- Embedding of `discover_nvidia` (lib.rs:160-191): `entries` is the
listing of `/sys/class/drm` (empty when the directory is unreadable). -/
def discover_nvidia (entries : List String) (vendor : String → Bool)
    (bdfOf : String → Option String) : List String × List String :=
  discover_loop vendor bdfOf entries ([], [])

/-- The process-wide discovery result: `NVIDIA_NODES` and `NVIDIA_BDFS`. -/
structure Discovery where
  nodes : List String
  bdfs : List String

/-- Embedding of `starts_with_nvidia_dev` (lib.rs:200-202). -/
def starts_with_nvidia_dev (path : String) : Bool :=
  strStartsWith path "/dev/nvidia"

/-- Embedding of `is_blocked_pci_config` (lib.rs:204-212): the path must
contain `/config` and contain `/<bdf>/config` for some discovered BDF. -/
def is_blocked_pci_config (st : Discovery) (path : String) : Bool :=
  if !strContains path "/config" then false
  else st.bdfs.any (fun bdf => strContains path ("/" ++ bdf ++ "/config"))

/-- Embedding of `is_nvidia_dri_path` (lib.rs:214-226): the path equals
`/dev/dri/<node>` for a discovered node, or lies under `/dev/dri/by-path/`
and contains a discovered BDF. -/
def is_nvidia_dri_path (st : Discovery) (path : String) : Bool :=
  st.nodes.any (fun n => path == "/dev/dri/" ++ n) ||
  (strStartsWith path "/dev/dri/by-path/" &&
    st.bdfs.any (fun bdf => strContains path bdf))

/-- Embedding of `should_block_open` (lib.rs:228-239), with the `ACTIVE`
flag and the discovery result as explicit arguments. -/
def should_block_open (active : Bool) (st : Discovery) (path : String) : Bool :=
  if !active then false
  else if starts_with_nvidia_dev path then true
  else if is_nvidia_dri_path st path then true
  else if strStartsWith path "/usr/share/vulkan/icd.d/nvidia" then true
  else if strStartsWith path "/usr/share/vulkan/implicit_layer.d/nvidia" then true
  else if strContains path "nvidia-drm_gbm.so" then true
  else if strContains path "libGLX_nvidia.so" then true
  else if strStartsWith path "/usr/lib/libnvidia-" then true
  else if is_blocked_pci_config st path then true
  else false

/-- Embedding of `should_block_dlopen` (lib.rs:274-282). -/
def should_block_dlopen (active : Bool) (filename : String) : Bool :=
  if !active then false
  else
    strContains filename "libGLX_nvidia" ||
    strContains filename "nvidia-drm_gbm.so" ||
    strContains filename "libnvidia-" ||
    strContains filename "/usr/lib/libnvidia-"

/-- Embedding of `is_hidden_entry` (lib.rs:328-343).  The `_dir` argument
is present, and unused, exactly as in the source. -/
def is_hidden_entry (active : Bool) (st : Discovery) (_dir : String)
    (name : String) : Bool :=
  if !active then false
  else if strStartsWith name "nvidia" then true
  else if st.nodes.any (fun n => n == name) then true
  else st.bdfs.any (fun bdf =>
    strContains name bdf ||
    (match afterFirstColon bdf.toList with
     | some short => !short.isEmpty && charsContain short name.toList
     | none => false))

/-- Embedding of one call to the `readdir` hook (lib.rs:346-362) over the
remaining stream of the real iterator: returns the entry handed to the
caller (`none` for end-of-stream) together with the stream left in the
real iterator.  `d` is `dir_path(dirp).unwrap_or_default()`, so the empty
string stands for an unresolvable directory handle. -/
def readdir (a : Bool) (st : Discovery) (d : String) :
    List String → Option String × List String
  | [] => (none, [])
  | e :: rest =>
    if !a then (some e, rest)
    else if d == "" then (some e, rest)
    else if is_hidden_entry a st d e then readdir a st d rest
    else (some e, rest)

/-- Draining the `readdir` hook: the full sequence of entries an
application sees when it calls the hook until end-of-stream.  Each step of
this recursion performs exactly the checks of one `readdir` call
(`readdirStream_step` below proves the correspondence). -/
def readdirStream (a : Bool) (st : Discovery) (d : String) :
    List String → List String
  | [] => []
  | e :: rest =>
    if !a then e :: readdirStream a st d rest
    else if d == "" then e :: readdirStream a st d rest
    else if is_hidden_entry a st d e then readdirStream a st d rest
    else e :: readdirStream a st d rest

/-- `O_CREAT` on Linux (octal 100). -/
def O_CREAT : Nat := 64

/-- `O_TMPFILE` on Linux: `__O_TMPFILE | O_DIRECTORY` (octal 20200000). -/
def O_TMPFILE : Nat := 4259840

/-- `AT_FDCWD` on Linux. -/
def AT_FDCWD : Int := -100

/-- Arguments of the raw `sys_openat` system call performed by the
non-blocked branch of the open hooks (lib.rs:392-394). -/
structure SysOpenat where
  dirfd : Int
  path : String
  flags : Nat
  mode : Nat
deriving DecidableEq

/-- Embedding of the `openat` hook (lib.rs:400-413): a blocked path yields
`none` (the hook returns `-1` with `ENOENT`); otherwise the raw system
call is made, consuming the variadic mode argument only when
`(flags & O_CREAT) != 0 || (flags & O_TMPFILE) == O_TMPFILE`. -/
def openat_hook (active : Bool) (st : Discovery) (dirfd : Int)
    (path : String) (flags modeArg : Nat) : Option SysOpenat :=
  if should_block_open active st path then none
  else
    let mode :=
      if flags &&& O_CREAT != 0 || flags &&& O_TMPFILE == O_TMPFILE then modeArg
      else 0
    some ⟨dirfd, path, flags, mode⟩

/-- Embedding of the `open` hook (lib.rs:415-428): same as `openat` but
forwarding with `AT_FDCWD`. -/
def open_hook (active : Bool) (st : Discovery) (path : String)
    (flags modeArg : Nat) : Option SysOpenat :=
  if should_block_open active st path then none
  else
    let mode :=
      if flags &&& O_CREAT != 0 || flags &&& O_TMPFILE == O_TMPFILE then modeArg
      else 0
    some ⟨AT_FDCWD, path, flags, mode⟩

/-! ## Helper lemmas -/

/-- One call of the `readdir` hook followed by draining the remaining
stream equals draining the whole stream: `readdirStream` really is the
iterate of `readdir`. -/
theorem readdirStream_step (a : Bool) (st : Discovery) (d : String)
    (es : List String) :
    readdirStream a st d es =
      (match readdir a st d es with
       | (none, _) => []
       | (some e, rest) => e :: readdirStream a st d rest) := by
  induction es with
  | nil => simp [readdir, readdirStream]
  | cons e rest ih =>
    cases hA : !a <;> cases hD : d == "" <;>
      cases hH : is_hidden_entry a st d e <;>
        simp [readdir, readdirStream, hA, hD, hH, ih]

/-- Draining the active `readdir` hook over a resolvable directory keeps
exactly the non-hidden entries, in order. -/
theorem readdirStream_filter_aux (st : Discovery) (d : String)
    (hd : d ≠ "") (es : List String) :
    readdirStream true st d es =
      es.filter (fun n => !is_hidden_entry true st d n) := by
  induction es with
  | nil => simp [readdirStream]
  | cons e rest ih =>
    cases hH : is_hidden_entry true st d e <;>
      simp [readdirStream, hd, hH, ih, List.filter_cons]

/-- Boolean shape of the two sequential conditional stores in
`apply_policy_from_exe`, starting from `active = true`. -/
theorem ite_policy_bool (x d : Bool) :
    (if d then false else if x then false else true) = !(x || d) := by
  cases x <;> cases d <;> rfl

/-- The `nodes` accumulator of the discovery loop collects exactly the
entries that pass the devnode-name check and the vendor check, appended in
order to the accumulator. -/
theorem discover_loop_nodes_aux (vendor : String → Bool)
    (bdfOf : String → Option String) (es : List String)
    (ns bs : List String) :
    (discover_loop vendor bdfOf es (ns, bs)).1 =
      ns ++ es.filter (fun n => is_drm_devnode_name n && vendor n) := by
  induction es generalizing ns bs with
  | nil => simp [discover_loop]
  | cons e rest ih =>
    cases hN : is_drm_devnode_name e <;> cases hV : vendor e <;>
      simp [discover_loop, hN, hV, ih, List.filter_cons]

/-! ## Claim theorems -/

/-- Claim C1: the activation value computed at initialization — start from
`active = true`, skip the policy when the self-executable path is
unreadable — equals the spec's decision rule: `active` becomes `false`
exactly when (an allowlist is configured and no allow pattern matches) or
(some deny pattern matches). -/
theorem policy_decision_matches_spec (fnm : String → String → Bool)
    (env : PolicyEnv) :
    nh_init_active fnm env = policySpecDecision fnm env := by
  obtain ⟨exe, ea, ed, af, df⟩ := env
  cases exe with
  | none => rfl
  | some exe_full =>
    simp only [nh_init_active, apply_policy_from_exe, policySpecDecision]
    exact ite_policy_bool _ _

/-- Claim C2: with `active = false`, the three classification predicates
return `false` for every path, library name and entry name, whatever the
discovery results are. -/
theorem inactive_predicates_all_false (st : Discovery)
    (path filename d name : String) :
    should_block_open false st path = false ∧
    should_block_dlopen false filename = false ∧
    is_hidden_entry false st d name = false :=
  ⟨rfl, rfl, rfl⟩

/-- Claim C3: when active over a resolvable directory, iterating the
`readdir` hook yields exactly the non-hidden entries in their original
order, end-of-stream is passed through, and on the underlying sequence
`["card0", "card1", "renderD128", "nvidia0"]` with discovered nodes
`{card0}` and no BDFs the hook yields `["card1", "renderD128"]`. -/
theorem readdir_filters_hidden_entries (st : Discovery) (d : String)
    (es : List String) (hd : d ≠ "") :
    readdirStream true st d es =
      es.filter (fun n => !is_hidden_entry true st d n) ∧
    readdir true st d [] = (none, []) ∧
    readdirStream true ⟨["card0"], []⟩ "/dev/dri"
        ["card0", "card1", "renderD128", "nvidia0"] =
      ["card1", "renderD128"] :=
  ⟨readdirStream_filter_aux st d hd es, rfl, by decide⟩

/-- Witness for claim C3 at a concrete directory and entry stream. -/
theorem readdir_filters_hidden_entries_witness :
    readdirStream true ⟨["card0"], []⟩ "/dev/dri"
        ["card0", "card1", "renderD128", "nvidia0"] =
      List.filter (fun n => !is_hidden_entry true ⟨["card0"], []⟩ "/dev/dri" n)
        ["card0", "card1", "renderD128", "nvidia0"] :=
  (readdir_filters_hidden_entries ⟨["card0"], []⟩ "/dev/dri"
    ["card0", "card1", "renderD128", "nvidia0"] (by decide)).1

/-- Counterexample to claim C4: the source accepts `renderDx` as a device
node candidate although it does not match the grammar `renderD<digits>` /
`card<digits>` (prefix followed by one or more decimal digits and nothing
else). -/
theorem devnode_grammar_counterexample :
    is_drm_devnode_name "renderDx" = true ∧
    specNodeGrammar "renderDx" = false := by
  decide

/-- Claim C4 as amended: a directory-entry name is a candidate device node
if and only if it starts with the literal `renderD` (with no constraint on
the remainder), or starts with `card` with every remaining character a
decimal digit (possibly no remaining characters); and discovery keeps as
nodes exactly the entries passing this check and then the vendor check. -/
theorem devnode_candidate_amended (name : String) (entries : List String)
    (vendor : String → Bool) (bdfOf : String → Option String) :
    (is_drm_devnode_name name =
      (strStartsWith name "renderD" ||
        (strStartsWith name "card" && (name.toList.drop 4).all Char.isDigit))) ∧
    (discover_nvidia entries vendor bdfOf).1 =
      entries.filter (fun n => is_drm_devnode_name n && vendor n) := by
  constructor
  · cases hR : strStartsWith name "renderD" <;>
      cases hC : strStartsWith name "card" <;>
        simp [is_drm_devnode_name, hR, hC]
  · simpa using discover_loop_nodes_aux vendor bdfOf entries [] []

/-- Claim C5: a pattern without a path separator is matched against the
base name only — the full-path argument is irrelevant — and a pattern with
a separator is matched against the full path only. -/
theorem glob_target_dependence (fnm : String → String → Bool)
    (pat : String) :
    (strContains pat "/" = false →
      ∀ f1 f2 b : String,
        glob_match fnm pat f1 b = glob_match fnm pat f2 b) ∧
    (strContains pat "/" = true →
      ∀ f b1 b2 : String,
        glob_match fnm pat f b1 = glob_match fnm pat f b2) := by
  constructor <;> intro h x y z <;> simp [glob_match, h]

/-- Witness for claim C5 with a separator-free and a separator-bearing
pattern under a concrete matcher. -/
theorem glob_target_dependence_witness :
    glob_match (fun p t => p == t) "ab" "/x/f1" "ab" =
      glob_match (fun p t => p == t) "ab" "/x/f2" "ab" ∧
    glob_match (fun p t => p == t) "a/b" "a/b" "b1" =
      glob_match (fun p t => p == t) "a/b" "a/b" "b2" :=
  ⟨(glob_target_dependence (fun p t => p == t) "ab").1 (by decide)
      "/x/f1" "/x/f2" "ab",
   (glob_target_dependence (fun p t => p == t) "a/b").2 (by decide)
      "a/b" "b1" "b2"⟩

/-- Claim C6: with discovered BDF set `{0000:01:00.0}` and no nodes, the
open hook blocks the PCI config path of that device and passes the config
path of a different device. -/
theorem pci_config_block_example :
    should_block_open true ⟨[], ["0000:01:00.0"]⟩
        "/sys/bus/pci/devices/0000:01:00.0/config" = true ∧
    should_block_open true ⟨[], ["0000:01:00.0"]⟩
        "/sys/bus/pci/devices/0000:02:00.0/config" = false := by
  decide

/-- Claim C7: on every non-blocked call of the variadic `open`/`openat`
hooks, the variadic mode argument is forwarded to the raw system call
exactly when the flags word has the `O_CREAT` bit or contains the full
`O_TMPFILE` pattern, and the forwarded mode is `0` otherwise. -/
theorem open_mode_forwarding (active : Bool) (st : Discovery) (dirfd : Int)
    (path : String) (flags modeArg : Nat)
    (hnb : should_block_open active st path = false) :
    ((flags &&& O_CREAT != 0 || flags &&& O_TMPFILE == O_TMPFILE) = true →
      openat_hook active st dirfd path flags modeArg =
        some ⟨dirfd, path, flags, modeArg⟩ ∧
      open_hook active st path flags modeArg =
        some ⟨AT_FDCWD, path, flags, modeArg⟩) ∧
    ((flags &&& O_CREAT != 0 || flags &&& O_TMPFILE == O_TMPFILE) = false →
      openat_hook active st dirfd path flags modeArg =
        some ⟨dirfd, path, flags, 0⟩ ∧
      open_hook active st path flags modeArg =
        some ⟨AT_FDCWD, path, flags, 0⟩) := by
  constructor <;> intro hc <;>
    simp [openat_hook, open_hook, hnb, hc]

/-- Witness for claim C7: a creating call forwards the mode argument, a
plain read-only call forwards mode `0`. -/
theorem open_mode_forwarding_witness :
    openat_hook true ⟨[], []⟩ 3 "/tmp/x" 64 7 = some ⟨3, "/tmp/x", 64, 7⟩ ∧
    openat_hook true ⟨[], []⟩ 3 "/tmp/x" 0 7 = some ⟨3, "/tmp/x", 0, 0⟩ :=
  ⟨((open_mode_forwarding true ⟨[], []⟩ 3 "/tmp/x" 64 7 (by decide)).1
      (by decide)).1,
   ((open_mode_forwarding true ⟨[], []⟩ 3 "/tmp/x" 0 7 (by decide)).2
      (by decide)).1⟩

/-- Claim C8: an unreadable list file loads as `(false, false)` — no match
and no usable entries — and consequently, with no environment allow value
and an unreadable allowlist file, the policy leaves hiding active unless a
deny pattern matches. -/
theorem allowlist_unreadable_fail_open (fnm : String → String → Bool)
    (exe_full exe_base : String) (env : PolicyEnv)
    (hea : env.envAllow = none) (haf : env.allowFile = none)
    (hdeny : ∀ full, env.exe = some full →
      env_list_has_match fnm env.envDeny full (basename full) = false ∧
      (file_list_has_match fnm env.denyFile full (basename full)).1 = false) :
    file_list_has_match fnm none exe_full exe_base = (false, false) ∧
    nh_init_active fnm env = true := by
  refine ⟨rfl, ?_⟩
  obtain ⟨exe, ea, ed, af, df⟩ := env
  simp only at hea haf
  subst hea haf
  cases exe with
  | none => rfl
  | some full =>
    obtain ⟨h1, h2⟩ := hdeny full rfl
    dsimp only at h1 h2
    simp only [file_list_has_match] at h2
    simp [nh_init_active, apply_policy_from_exe, file_list_has_match, h1, h2]

/-- Witness for claim C8: no allow sources, no deny sources, even under an
always-matching matcher, leaves hiding active. -/
theorem allowlist_unreadable_fail_open_witness :
    nh_init_active (fun _ _ => true)
      ⟨some "/bin/x", none, none, none, none⟩ = true :=
  (allowlist_unreadable_fail_open (fun _ _ => true) "f" "b"
    ⟨some "/bin/x", none, none, none, none⟩ rfl rfl
    (fun _ _ => ⟨rfl, rfl⟩)).2

/-- Claim C9: the hidden-entry classification never looks at the directory
argument: the same name is classified identically in any two directories. -/
theorem hidden_entry_ignores_dir (a : Bool) (st : Discovery)
    (d1 d2 name : String) :
    is_hidden_entry a st d1 name = is_hidden_entry a st d2 name :=
  rfl

/-- Claim C10: when active but the directory path resolves to the empty
string, one `readdir` call returns the first entry of the real iterator
unfiltered; in particular an entry that would be classified hidden is
still returned. -/
theorem readdir_unresolved_dir_no_hiding (st : Discovery)
    (es : List String) :
    readdir true st "" es = (es.head?, es.tail) ∧
    readdir true ⟨["card0"], []⟩ "" ["card0"] = (some "card0", []) ∧
    is_hidden_entry true ⟨["card0"], []⟩ "" "card0" = true := by
  refine ⟨?_, by decide, by decide⟩
  cases es <;> rfl

end NvidiaHide
